import Mathlib

/-!
Verification of the probing/classification engine of
`advanced_username_recon.py` (Username-Sniffer).

The Python source is shallowly embedded: pure fragments become Lean
functions, the HTTP layer becomes explicit oracles (a function from
attempt index and method to either an exception or a response), and the
compiled regular expressions of a site profile become optional Boolean
matchers `String → Bool` (modelling the `search` method of a compiled
pattern: `some f` for a configured pattern, `none` for an absent one).
Character strings are Lean `String`s; Python string slicing, `strip` and
`lower` are modelled character-wise on `String.data`.
-/

/-! Definitions: the shallow embedding of the source. -/

/-- Characters of a Python-style placeholder pair, written with escapes. -/
def placeholder : String := "\x7b\x7d"

/-- Model of `str.strip()` from the source: drop whitespace from both ends. -/
def py_strip (s : String) : String :=
  String.mk (((s.data.dropWhile Char.isWhitespace).reverse.dropWhile Char.isWhitespace).reverse)

/-- Model of `str.lower()` from the source (ASCII lowering, as Lean's `Char.toLower`). -/
def py_lower (s : String) : String :=
  String.mk (s.data.map Char.toLower)

/-- Model of `username.strip().lower()` as performed in `run_scan` (line 324)
and `generate_username_variations` (line 26). -/
def normalize_handle (s : String) : String :=
  py_lower (py_strip s)

/-- Model of `str.upper()` (used for the HTTP method, line 182). -/
def py_upper (s : String) : String :=
  String.mk (s.data.map Char.toUpper)

/-- Character-level substitution of every placeholder pair. -/
def subst_placeholder (u : List Char) : List Char → List Char
  | [] => []
  | '\x7b' :: '\x7d' :: rest => u ++ subst_placeholder u rest
  | c :: rest => c :: subst_placeholder u rest

/-- Model of `site_data["url"].format(username)` (line 181) for templates
holding one placeholder (the only shape the catalog uses): substitute
the handle for the placeholder. -/
def format_url (template username : String) : String :=
  String.mk (subst_placeholder username.data template.data)

/-- Model of Python `s[:n]` slicing by characters. -/
def py_take (s : String) (n : Nat) : String :=
  String.mk (s.data.take n)

/-- Model of Python `s[n:]` slicing by characters. -/
def py_drop (s : String) (n : Nat) : String :=
  String.mk (s.data.drop n)

/-- A compiled optional regular expression of a site profile, embedded as a
Boolean matcher: `some f` models a configured pattern whose `search` over a
string is `f`; `none` models an absent pattern (`None` in the source). -/
abbrev OptPattern := Option (String → Bool)

/-- Model of the Python truthiness test `pat and pat.search(text)`:
`false` when no pattern is configured, otherwise the match result. -/
def opt_matches (pat : OptPattern) (text : String) : Bool :=
  match pat with
  | none => false
  | some f => f text

/-- Site profile record, as produced by `load_sites`: the `url` template,
the optional `method` field, the `skip` flag, and the three compiled
optional patterns `_not_found_re`, `_bad_redirect_re`, `_must_re`. -/
structure SiteData where
  url : String
  method : Option String := none
  skip : Bool := false
  not_found_re : OptPattern := none
  bad_redirect_re : OptPattern := none
  must_re : OptPattern := none

/-- Site data for `sites.get(site, ...)` with a missing name (line 367):
an empty record, whose `get("url", "")` is the empty string. -/
def default_site : SiteData := { url := "" }

/-- An HTTP response as the classifier observes it: status code, final URL,
the URLs of the redirect history, and the body as the list of decoded
chunks that `resp.content.iter_chunked(8192)` yields (each chunk at most
8192 bytes on the wire). -/
structure Response where
  status : Nat
  url : String := ""
  history : List String := []
  chunks : List String := []

/-- Model of `read_limited_text`'s loop (lines 96-101): accumulate decoded
chunks, adding each chunk before testing the running total against the
limit, and stop at the first chunk whose inclusion reaches the limit. -/
def read_limited_go (chunks : List String) (read : Nat) (limit : Nat) : List String :=
  match chunks with
  | [] => []
  | c :: rest =>
      if read + c.length ≥ limit then [c]
      else c :: read_limited_go rest (read + c.length) limit

/-- Model of `read_limited_text` (lines 93-102): join the accumulated chunks. -/
def read_limited_text (chunks : List String) (limit : Nat) : String :=
  String.join (read_limited_go chunks 0 limit)

/-- Model of `looks_like_bad_redirect` (lines 105-122): with no
`_bad_redirect_re` return `False`; otherwise test the final URL, then every
URL of the redirect history. -/
def looks_like_bad_redirect (site : SiteData) (resp : Response) : Bool :=
  match site.bad_redirect_re with
  | none => false
  | some bad_re =>
      if bad_re resp.url then true
      else resp.history.any (fun h => bad_re h)

/-- Statuses treated as hard not-found (line 134). -/
def hard_not_found_statuses : List Nat := [404, 410]

/-- Statuses listed as blocked/throttled/weird (line 166). -/
def odd_statuses : List Nat := [301, 302, 303, 307, 308, 401, 403, 405, 429, 500, 502, 503]

/-- Model of `interpret_response` (lines 125-169). The verdict component is
`some true` for Exists, `some false` for NotFound, `none` for Uncertain,
exactly as the source's `Optional[bool]`; the source's `text` binding is
inlined, which is sound because the read is pure here. -/
def interpret_response (site_name : String) (site : SiteData) (url : String)
    (resp : Response) : String × Option Bool × String :=
  if hard_not_found_statuses.contains resp.status then
    (site_name, some false, url)
  else if looks_like_bad_redirect site resp then
    (site_name, none, url)
  else if resp.status = 200 then
    if site.not_found_re.isSome || site.must_re.isSome then
      if opt_matches site.not_found_re (read_limited_text resp.chunks 120000) then
        (site_name, some false, url)
      else
        match site.must_re with
        | some must_f =>
            if must_f (read_limited_text resp.chunks 120000) then (site_name, some true, url)
            else (site_name, none, url)
        | none => (site_name, some true, url)
    else
      (site_name, none, url)
  else if odd_statuses.contains resp.status then
    (site_name, none, url)
  else
    (site_name, none, url)

/-- Concrete profile used to witness C1: only a not-found pattern. -/
def c1_site : SiteData :=
  { url := "https://ex.invalid/\x7b\x7d"
    not_found_re := some (fun s => decide (s = "gone")) }

/-- Concrete 200 response whose body matches the not-found pattern of `c1_site`. -/
def c1_resp : Response := { status := 200, url := "https://ex.invalid/u", chunks := ["gone"] }

/-- Concrete profile used to refute C2 as stated: a bad-redirect pattern
that matches every URL, plus a must-contain pattern that matches every body. -/
def c2_site : SiteData :=
  { url := "https://ex.invalid/\x7b\x7d"
    bad_redirect_re := some (fun _ => true)
    must_re := some (fun _ => true) }

/-- Concrete 404 response whose final URL matches the bad-redirect pattern. -/
def c2_resp : Response := { status := 404, url := "https://ex.invalid/login" }

/-- Profile with every pattern configured to match everything, to witness
that C3 holds regardless of the patterns. -/
def c3_site : SiteData :=
  { url := "https://ex.invalid/\x7b\x7d"
    not_found_re := some (fun _ => true)
    bad_redirect_re := some (fun _ => true)
    must_re := some (fun _ => true) }

/-- Outcome of one HTTP request as the executor observes it: either an
exception (`aiohttp.ClientError`, `asyncio.TimeoutError`, or any other
exception — all treated alike by the source) or a response. -/
inductive ReqResult where
  | exn : ReqResult
  | ok : Response → ReqResult

/-- Trace of one `check_username` call: the returned triple, the methods of
the HTTP requests issued in order, and the backoff sleeps (in seconds)
performed between attempts. -/
structure CheckTrace where
  result : String × Option Bool × String
  requests : List String
  sleeps : List ℚ

/-- Statuses that make a HEAD probe retry with GET (line 202). -/
def head_blocked_statuses : List Nat := [403, 405, 429, 500, 502, 503]

/-- Model of one iteration body of the attempt loop (lines 198-205): issue
the configured method; when it is HEAD and the status is blocked, issue one
follow-up GET and classify that response; an exception anywhere in the
attempt (first request or follow-up) yields no result, to be handled by the
retry logic. Returns the classification (when one was produced) and the
methods issued. -/
def run_attempt (site_name : String) (site : SiteData) (url : String) (method : String)
    (net : Nat → String → ReqResult) (attempt : Nat) :
    Option (String × Option Bool × String) × List String :=
  match net attempt method with
  | ReqResult.exn => (none, [method])
  | ReqResult.ok resp =>
      if method = "HEAD" && head_blocked_statuses.contains resp.status then
        match net attempt "GET" with
        | ReqResult.exn => (none, [method, "GET"])
        | ReqResult.ok resp2 => (some (interpret_response site_name site url resp2), [method, "GET"])
      else (some (interpret_response site_name site url resp), [method])

/-- Model of the `for attempt in range(3)` loop of `check_username`
(lines 197-216), traversing the list of remaining attempt indices: a failed
attempt with `attempt == 2` returns `(site_name, None, url)` immediately;
an earlier failure sleeps `0.25 * 2 ** attempt` seconds and continues; the
fall-through after the loop (line 216) also returns `(site_name, None, url)`. -/
def check_loop (site_name : String) (site : SiteData) (url : String) (method : String)
    (net : Nat → String → ReqResult) : List Nat → CheckTrace
  | [] => { result := (site_name, none, url), requests := [], sleeps := [] }
  | attempt :: rest =>
      match run_attempt site_name site url method net attempt with
      | (some res, reqs) => { result := res, requests := reqs, sleeps := [] }
      | (none, reqs) =>
          if attempt = 2 then
            { result := (site_name, none, url), requests := reqs, sleeps := [] }
          else
            let t := check_loop site_name site url method net rest
            { result := t.result
              requests := reqs ++ t.requests
              sleeps := ((0.25 : ℚ) * 2 ^ attempt) :: t.sleeps }

/-- Model of `check_username` (lines 172-216): build the URL from the
template, normalize the method (`.get("method", "HEAD")` then `.upper()`),
and run the three-attempt loop. -/
def check_username (site_name : String) (site : SiteData) (username : String)
    (net : Nat → String → ReqResult) : CheckTrace :=
  let url := format_url site.url username
  let method := py_upper (site.method.getD "HEAD")
  check_loop site_name site url method net [0, 1, 2]

/-- Profile configured with method GET, used to refute C5 as stated. -/
def c5_site : SiteData := { url := "https://ex.invalid/\x7b\x7d", method := some "GET" }

/-- Network giving status 403 to every request. -/
def c5_net : Nat → String → ReqResult := fun _ _ => ReqResult.ok { status := 403 }

/-- Profile with default method (HEAD), used to witness the amended C5. -/
def c5w_site : SiteData := { url := "https://ex.invalid/\x7b\x7d" }

/-- Network answering 429 to HEAD and 200 to GET. -/
def c5w_net : Nat → String → ReqResult :=
  fun _ m => if m = "GET" then ReqResult.ok { status := 200 } else ReqResult.ok { status := 429 }

/-- A maximal-size chunk, as `iter_chunked(8192)` yields for a long body. -/
def c7_chunk : String := String.mk (List.replicate 8192 'a')

/-- Fifteen full chunks: a 122,880-character body. -/
def c7_chunks : List String :=
  [c7_chunk, c7_chunk, c7_chunk, c7_chunk, c7_chunk, c7_chunk, c7_chunk, c7_chunk,
   c7_chunk, c7_chunk, c7_chunk, c7_chunk, c7_chunk, c7_chunk, c7_chunk]

/-- Scanner for the tail of a `<[^>]+>` match: after at least one non-`>`
character, consume to the first `>` and return the remainder. -/
def drop_tag_go : List Char → Option (List Char)
  | [] => none
  | c :: cs => if c = '>' then some cs else drop_tag_go cs

/-- Given the characters after a `<`, decide whether `[^>]+>` matches here
(Python `re` semantics: at least one non-`>` character, then the first `>`),
returning the characters after the match. -/
def drop_tag : List Char → Option (List Char)
  | [] => none
  | c :: cs => if c = '>' then none else drop_tag_go cs

/-- Model of `re.sub(r"<[^>]+>", "", s)` (line 237) as a left-to-right
scan: at each `<` try to complete a tag and drop it, otherwise keep the
character. The structural fuel argument bounds the recursion; it is
initialized to the list length, which the length lemma below shows is
always enough. -/
def strip_tags_fuel : Nat → List Char → List Char
  | _, [] => []
  | 0, l => l
  | fuel + 1, c :: rest =>
      if c = '<' then
        match drop_tag rest with
        | some rest2 => strip_tags_fuel fuel rest2
        | none => c :: strip_tags_fuel fuel rest
      else c :: strip_tags_fuel fuel rest

/-- Model of the markup-removal step of `fetch_x_bio` (line 237). -/
def strip_tags (s : String) : String :=
  String.mk (strip_tags_fuel s.data.length s.data)

/-- A `<[^>]+>` tag occurs somewhere in the character list. -/
def has_tag_go : List Char → Bool
  | [] => false
  | c :: rest => ((c == '<') && (drop_tag rest).isSome) || has_tag_go rest

/-- A `<[^>]+>` tag occurs somewhere in the string. -/
def has_tag (s : String) : Bool := has_tag_go s.data

/-- Model of `re.sub` collapsing whitespace (lines 238, 243): replace every
maximal whitespace run by one space, scanning with a flag remembering
whether the previous character was part of a run. -/
def collapse_go : Bool → List Char → List Char
  | _, [] => []
  | prev, c :: rest =>
      if c.isWhitespace then
        if prev then collapse_go true rest else ' ' :: collapse_go true rest
      else c :: collapse_go false rest

/-- Model of the whitespace-collapsing step of `fetch_x_bio`. -/
def collapse_ws (s : String) : String :=
  String.mk (collapse_go false s.data)

/-- No two adjacent whitespace characters occur in the list. -/
def no_double_ws : List Char → Bool
  | [] => true
  | [_] => true
  | a :: b :: rest => (!(a.isWhitespace && b.isWhitespace)) && no_double_ws (b :: rest)

/-- Model of the truncation step `(bio[:80] + "...") if len(bio) > 80 else bio`
(lines 239, 244). -/
def truncate_bio (bio : String) : String :=
  if bio.length > 80 then py_take bio 80 ++ "..." else bio

/-- Cleaning pipeline of the structured-description branch (lines 237-239):
strip markup, strip edges, collapse whitespace, truncate. -/
def process_desc_bio (g : String) : String :=
  truncate_bio (collapse_ws (py_strip (strip_tags g)))

/-- Cleaning pipeline of the meta-description branch (lines 243-244):
strip edges, collapse whitespace, truncate. -/
def process_meta_bio (g : String) : String :=
  truncate_bio (collapse_ws (py_strip g))

/-- Model of `fetch_x_bio` (lines 219-248). The network and the two regex
searches over the page are oracles: `exn` models any raised exception
(caught, returning `None`), `status` the response status, `descMatch` the
group of the `UserDescription` pattern, `metaMatch` the group of the
meta-description pattern. -/
def fetch_x_bio (exn : Bool) (status : Nat) (descMatch metaMatch : Option String) :
    Option String :=
  if exn then none
  else if status ≠ 200 then none
  else
    match descMatch with
    | some g => some (process_desc_bio g)
    | none =>
        match metaMatch with
        | some g => some (process_meta_bio g)
        | none => none

/-- Characters of `pat` start the list `l`. -/
def starts_with : List Char → List Char → Bool
  | [], _ => true
  | _ :: _, [] => false
  | p :: ps, c :: cs => (p == c) && starts_with ps cs

/-- Characters of `pat` occur contiguously somewhere in the list. -/
def contains_sub (pat : List Char) : List Char → Bool
  | [] => pat.isEmpty
  | c :: cs => starts_with pat (c :: cs) || contains_sub pat cs

/-- Model of Python `pat in body` substring containment. -/
def py_contains (body pat : String) : Bool :=
  contains_sub pat.data body.data

/-- Names that identify the X/Twitter platform (line 84). -/
def x_names : List String := ["twitter", "twitter/x", "x"]

/-- Model of `is_x_site` (lines 82-87): the stripped lowered name is one of
the known names, or the lowered URL template contains a known domain with
its placeholder. -/
def is_x_site (site_name : String) (site_data : SiteData) : Bool :=
  let s := py_lower (py_strip site_name)
  if x_names.contains s then true
  else
    let url := py_lower site_data.url
    py_contains url "x.com/\x7b\x7d" || py_contains url "twitter.com/\x7b\x7d"

/-- Set-like insertion preserving first-insertion order, modelling
`variations.add(...)` on the Python set (membership and size faithful;
iteration order is absorbed by the shuffle oracle). -/
def insert_set (l : List String) (s : String) : List String :=
  if l.contains s then l else l ++ [s]

/-- Model of the suffix loop of `generate_username_variations`
(lines 33-38): add the three decorated forms per suffix until the variation
set holds `max_variants` entries. -/
def add_suffix_loop (base : String) (maxv : Nat) : List String → List String → List String
  | vars, [] => vars
  | vars, s :: rest =>
      if vars.length ≥ maxv then vars
      else add_suffix_loop base maxv
        (insert_set (insert_set (insert_set vars (base ++ s)) (base ++ "_" ++ s))
          (base ++ "." ++ s))
        rest

/-- Number-like suffixes (line 29); the `random.randint(0, 99)` draw is the
oracle `rnd` reduced modulo 100. -/
def number_suffixes (rnd : Nat) : List String :=
  [toString (rnd % 100), "123", "69", "88", "tv", "yt", "x", "official"]

/-- Year suffixes `range(1990, 2027)` (line 30). -/
def year_suffixes : List String :=
  (List.range 37).map (fun i => toString (1990 + i))

/-- Simple suffixes (line 31). -/
def simple_suffixes : List String :=
  ["_", "__", ".", "pro", "real", "hq", "fan", "live"]

/-- Name decorations prepended to the base handle (line 45). -/
def name_prefixes : List String := ["the", "real", "mr", "ms", "official"]

/-- Model of `generate_username_variations` (lines 25-52). The set's
iteration order and `random.shuffle` are absorbed into the permutation
oracle `shuf`; the random suffix digit is the oracle `rnd`. -/
def generate_username_variations (rnd : Nat) (shuf : List String → List String)
    (base : String) (max_variants : Nat) : List String :=
  let b := normalize_handle base
  let vars := [b]
  let vars := add_suffix_loop b max_variants vars
    (number_suffixes rnd ++ year_suffixes ++ simple_suffixes)
  let vars :=
    if 4 < b.length then
      let mid := b.length / 2
      insert_set (insert_set vars (py_take b mid ++ "_" ++ py_drop b mid))
        (py_take b mid ++ "." ++ py_drop b mid)
    else vars
  let vars := name_prefixes.foldl
    (fun v p => insert_set (insert_set v (p ++ b)) (p ++ "_" ++ b)) vars
  (shuf vars).take max_variants

/-- Observable event of one handle's sweep: a probe completion for one
site, or the single enrichment fetch. -/
inductive ScanEvent where
  | probe : String → ScanEvent
  | enrich : ScanEvent
deriving DecidableEq

/-- Test for the enrichment event. -/
def is_enrich : ScanEvent → Bool
  | ScanEvent.enrich => true
  | _ => false

/-- Output of one handle's sweep: the collected probe results in completion
order, the cached bio (set only when the enrichment succeeded with a
non-empty string), and the event trace. -/
structure HandleOut where
  results : List (String × Option Bool × String)
  bio : Option String
  events : List ScanEvent

/-- Model of the body of the `as_completed` collection loop (lines 362-368):
append the completed result, update the `x_exists` flag using
`is_x_site(site, sites.get(site, ...))`, and record the probe event. -/
def collect_step (sites : List (String × SiteData))
    (acc : List (String × Option Bool × String) × Bool × List ScanEvent)
    (r : String × Option Bool × String) :
    List (String × Option Bool × String) × Bool × List ScanEvent :=
  (acc.1 ++ [r],
   acc.2.1 || ((r.2.1 == some true) && is_x_site r.1 ((List.lookup r.1 sites).getD default_site)),
   acc.2.2 ++ [ScanEvent.probe r.1])

/-- Model of one handle's sweep inside `run_scan` (lines 353-373): run one
`check_username` per included site, collect the completions (the
`as_completed` arrival order is the permutation oracle `ord`), then — only
when the `x_exists` flag was set — perform the single enrichment fetch; a
falsy bio (`None` or empty) leaves the cache untouched (lines 372-373). -/
def scan_handle (sites : List (String × SiteData)) (uname : String)
    (net : String → Nat → String → ReqResult) (bioFetch : String → Option String)
    (ord : List CheckTrace → List CheckTrace) : HandleOut :=
  let traces := ord (sites.map (fun p => check_username p.1 p.2 uname (net p.1)))
  let step := (traces.map (fun t => t.result)).foldl (collect_step sites) ([], false, [])
  if step.2.1 then
    match bioFetch uname with
    | some b =>
        { results := step.1
          bio := if b = "" then none else some b
          events := step.2.2 ++ [ScanEvent.enrich] }
    | none => { results := step.1, bio := none, events := step.2.2 ++ [ScanEvent.enrich] }
  else
    { results := step.1, bio := none, events := step.2.2 }

/-- Aggregate scan result: one entry per scanned handle, in order. -/
structure ScanOutput where
  handles : List (String × HandleOut)

/-- Model of the skip filter (lines 318-322): a profile is included unless
it is marked skip and skipped profiles are not explicitly included. -/
def included_sites (sites_all : List (String × SiteData)) (include_skipped : Bool) :
    List (String × SiteData) :=
  sites_all.filter (fun p => !(p.2.skip && !include_skipped))

/-- Model of `run_scan` (lines 314-377), up to the point where results are
handed to rendering/export: filter the catalog, normalize the handle
(raising `ValueError("Empty username")` on an empty normalized handle,
line 326), choose the handles to check, and run one sweep per handle,
sequentially. -/
def run_scan (sites_all : List (String × SiteData)) (include_skipped : Bool)
    (username : String) (use_variants : Bool) (max_variants : Nat)
    (rnd : Nat) (shuf : List String → List String)
    (net : String → String → Nat → String → ReqResult)
    (bioFetch : String → Option String)
    (ord : String → List CheckTrace → List CheckTrace) :
    Except String ScanOutput :=
  let sites := included_sites sites_all include_skipped
  let base := normalize_handle username
  if base = "" then Except.error "Empty username"
  else
    let usernames :=
      if use_variants then generate_username_variations rnd shuf base max_variants
      else [base]
    Except.ok
      { handles := usernames.map
          (fun u => (u, scan_handle sites u (net u) bioFetch (ord u))) }

/-- Trivial arrival-order oracle: completion in submission order. -/
def triv_ord : String → List CheckTrace → List CheckTrace := fun _ l => l

/-- Network oracle that always raises. -/
def no_net : String → String → Nat → String → ReqResult := fun _ _ _ _ => ReqResult.exn

/-- Enrichment oracle that always fails. -/
def no_bio : String → Option String := fun _ => none

/-- X-profile record used to witness C8. -/
def c8_site : SiteData :=
  { url := "https://x.com/\x7b\x7d", must_re := some (fun _ => true) }

/-- Network answering 200 with a body for every request. -/
def c8_net : String → Nat → String → ReqResult :=
  fun _ _ _ => ReqResult.ok { status := 200, chunks := ["ok"] }

/-! Theorems: supporting lemmas and the claims. -/

/-- C1: for a 200 response that does not match a bad-redirect rule, with
neither `notFoundPattern` nor `mustContainPattern` configured the verdict is
Uncertain (`none`); otherwise the body text is the limited read of the
chunks and, in order: a `notFoundPattern` match on it gives NotFound
(`some false`); else a configured `mustContainPattern` gives Exists
(`some true`) on match and Uncertain on non-match; else (only
`notFoundPattern` configured, no match) the verdict is Exists. -/
theorem C1_status200_body_rules (site_name : String) (site : SiteData) (url : String)
    (resp : Response)
    (h200 : resp.status = 200)
    (hbad : looks_like_bad_redirect site resp = false) :
    (site.not_found_re = none → site.must_re = none →
      (interpret_response site_name site url resp).2.1 = none)
    ∧ (opt_matches site.not_found_re (read_limited_text resp.chunks 120000) = true →
      (interpret_response site_name site url resp).2.1 = some false)
    ∧ (∀ must_f, site.must_re = some must_f →
        opt_matches site.not_found_re (read_limited_text resp.chunks 120000) = false →
        ((must_f (read_limited_text resp.chunks 120000) = true →
            (interpret_response site_name site url resp).2.1 = some true)
          ∧ (must_f (read_limited_text resp.chunks 120000) = false →
            (interpret_response site_name site url resp).2.1 = none)))
    ∧ (∀ nf_f, site.not_found_re = some nf_f → site.must_re = none →
        nf_f (read_limited_text resp.chunks 120000) = false →
        (interpret_response site_name site url resp).2.1 = some true) := by
  have hnf : (200 : Nat) ∉ hard_not_found_statuses := by decide
  refine ⟨?_, ?_, ?_, ?_⟩
  · intro h1 h2
    simp [interpret_response, hnf, hbad, h200, h1, h2]
  · intro hm
    cases hnfre : site.not_found_re with
    | none => rw [hnfre] at hm; simp [opt_matches] at hm
    | some nf_f =>
        rw [hnfre] at hm
        simp only [opt_matches] at hm
        simp [interpret_response, hnf, hbad, h200, hnfre, opt_matches, hm]
  · intro must_f hmr hnm
    constructor <;> intro h <;>
      simp [interpret_response, hnf, hbad, h200, hmr, hnm, h]
  · intro nf_f hnfre hmr hnm
    simp [interpret_response, hnf, hbad, h200, hnfre, hmr, opt_matches, hnm]

/-- Witness for C1 at a concrete input: the not-found pattern matches the
body, so the verdict is NotFound. -/
theorem C1_status200_body_rules_witness :
    (interpret_response "ex" c1_site "https://ex.invalid/u" c1_resp).2.1 = some false :=
  (C1_status200_body_rules "ex" c1_site "https://ex.invalid/u" c1_resp rfl rfl).2.1 rfl

/-- C2 counterexample: with `badRedirectPattern` configured and matching the
final URL, a 404 response is still classified NotFound (`some false`), not
Uncertain (`none`): the hard-not-found rule precedes the bad-redirect rule. -/
theorem C2_counterexample :
    looks_like_bad_redirect c2_site c2_resp = true
    ∧ (interpret_response "ex" c2_site "https://ex.invalid/u" c2_resp).2.1 = some false :=
  ⟨rfl, rfl⟩

/-- C2 (amended): for a profile with `badRedirectPattern` configured, if the
pattern matches the final URL or any redirect-history URL and the status is
not 404 and not 410, the verdict is Uncertain (`none`) — even at status 200
with a matching `mustContainPattern`; the check precedes all 200-status
body rules. -/
theorem C2_bad_redirect_uncertain (site_name : String) (site : SiteData) (url : String)
    (resp : Response) (b : String → Bool)
    (hb : site.bad_redirect_re = some b)
    (hmatch : (b resp.url || resp.history.any (fun h => b h)) = true)
    (h404 : resp.status ≠ 404) (h410 : resp.status ≠ 410) :
    (interpret_response site_name site url resp).2.1 = none := by
  have hnf : resp.status ∉ hard_not_found_statuses := by
    simp [hard_not_found_statuses, h404, h410]
  have hlooks : looks_like_bad_redirect site resp = true := by
    unfold looks_like_bad_redirect
    rw [hb]
    rcases Bool.or_eq_true_iff.mp hmatch with h | h
    · simp [h]
    · simp only [h]
      split <;> rfl
  simp [interpret_response, hnf, hlooks]

/-- Witness for the amended C2 at a concrete input: status 200, matching
must-contain pattern, bad redirect in the history — verdict Uncertain. -/
theorem C2_bad_redirect_uncertain_witness :
    (interpret_response "ex" c2_site "https://ex.invalid/u"
      { status := 200, url := "https://ex.invalid/u",
        history := ["https://ex.invalid/login"], chunks := ["hit"] }).2.1 = none :=
  C2_bad_redirect_uncertain "ex" c2_site "https://ex.invalid/u" _ (fun _ => true)
    rfl rfl (by decide) (by decide)

/-- C3: a response with status 404 or 410 is classified NotFound
(`some false`) regardless of configured patterns, redirect history, and
body: the hard-not-found rule is checked first. -/
theorem C3_hard_not_found (site_name : String) (site : SiteData) (url : String)
    (resp : Response) (h : resp.status = 404 ∨ resp.status = 410) :
    interpret_response site_name site url resp = (site_name, some false, url) := by
  have hc : resp.status ∈ hard_not_found_statuses := by
    rcases h with h | h <;> simp [hard_not_found_statuses, h]
  simp [interpret_response, hc]

/-- Witness for C3 at a concrete input: status 410, all patterns matching,
nonempty history and body — still NotFound. -/
theorem C3_hard_not_found_witness :
    interpret_response "ex" c3_site "https://ex.invalid/u"
      { status := 410, url := "https://ex.invalid/login",
        history := ["https://ex.invalid/login"], chunks := ["body"] }
    = ("ex", some false, "https://ex.invalid/u") :=
  C3_hard_not_found "ex" c3_site "https://ex.invalid/u" _ (Or.inr rfl)

/-- C4: when every attempt raises a transport error (or any other
exception), `check_username` issues exactly 3 requests with the configured
method, sleeps 0.25 s then 0.5 s between consecutive attempts, and returns
verdict Uncertain (`none`) with the originally constructed URL; the
function is total, so no exception reaches the caller. -/
theorem C4_retry_exhaustion (site_name : String) (site : SiteData) (username : String)
    (net : Nat → String → ReqResult)
    (hfail : ∀ attempt m, net attempt m = ReqResult.exn) :
    (check_username site_name site username net).result
      = (site_name, none, format_url site.url username)
    ∧ (check_username site_name site username net).requests
      = [py_upper (site.method.getD "HEAD"), py_upper (site.method.getD "HEAD"),
         py_upper (site.method.getD "HEAD")]
    ∧ (check_username site_name site username net).sleeps = [0.25, 0.5] := by
  have h0 := hfail 0 (py_upper (site.method.getD "HEAD"))
  have h1 := hfail 1 (py_upper (site.method.getD "HEAD"))
  have h2 := hfail 2 (py_upper (site.method.getD "HEAD"))
  refine ⟨?_, ?_, ?_⟩ <;> simp [check_username, check_loop, run_attempt, h0, h1, h2]
  norm_num

/-- Witness for C4 at a concrete input: a network that always raises. -/
theorem C4_retry_exhaustion_witness :
    (check_username "ex" c1_site "alice" (fun _ _ => ReqResult.exn)).result
      = ("ex", none, "https://ex.invalid/alice")
    ∧ (check_username "ex" c1_site "alice" (fun _ _ => ReqResult.exn)).requests
      = ["HEAD", "HEAD", "HEAD"]
    ∧ (check_username "ex" c1_site "alice" (fun _ _ => ReqResult.exn)).sleeps
      = [0.25, 0.5] := by
  have h := C4_retry_exhaustion "ex" c1_site "alice" (fun _ _ => ReqResult.exn)
    (fun _ _ => rfl)
  refine ⟨?_, ?_, ?_⟩
  · rw [h.1]; rfl
  · rw [h.2.1]; rfl
  · exact h.2.2

/-- C5 counterexample: a probe whose configured method is GET and whose
first response has status 403 (a blocked status) issues no follow-up
request at all — only one request is made, and the first response is the
one classified; the fallback is restricted to HEAD probes in the source
(`if method == "HEAD" and ...`, line 202). -/
theorem C5_counterexample :
    head_blocked_statuses.contains 403 = true
    ∧ (check_username "ex" c5_site "alice" c5_net).requests = ["GET"]
    ∧ (check_username "ex" c5_site "alice" c5_net).result
        = interpret_response "ex" c5_site "https://ex.invalid/alice" { status := 403 } :=
  ⟨rfl, rfl, rfl⟩

/-- Helper: every attempt issues the configured method first. -/
theorem run_attempt_head (site_name : String) (site : SiteData) (url m : String)
    (net : Nat → String → ReqResult) (a : Nat) :
    (run_attempt site_name site url m net a).2.head? = some m := by
  unfold run_attempt
  cases net a m with
  | exn => rfl
  | ok resp =>
      simp only []
      split
      · cases net a "GET" <;> rfl
      · rfl

/-- Helper: an attempt with a configured method other than HEAD issues
exactly one request, with that method — never a follow-up, whatever the
outcome of the request. -/
theorem run_attempt_non_head (site_name : String) (site : SiteData) (url m : String)
    (net : Nat → String → ReqResult) (hm : m ≠ "HEAD") (a : Nat) :
    (run_attempt site_name site url m net a).2 = [m] := by
  unfold run_attempt
  cases net a m with
  | exn => rfl
  | ok resp => simp [hm]

/-- Helper: when every attempt issues exactly the one configured request,
the loop issues at most one request per attempt index and only with the
configured method. -/
theorem check_loop_requests (site_name : String) (site : SiteData) (url m : String)
    (net : Nat → String → ReqResult)
    (h : ∀ a, (run_attempt site_name site url m net a).2 = [m]) :
    ∀ attempts, (check_loop site_name site url m net attempts).requests.length ≤ attempts.length
      ∧ ∀ x ∈ (check_loop site_name site url m net attempts).requests, x = m := by
  intro attempts
  induction attempts with
  | nil =>
      refine ⟨Nat.le_refl 0, ?_⟩
      intro x hx
      simp [check_loop] at hx
  | cons a rest ih =>
      rw [check_loop]
      cases hra : run_attempt site_name site url m net a with
      | mk o reqs =>
          have hreqs : reqs = [m] := by
            have := h a
            rw [hra] at this
            exact this
          cases o with
          | some res =>
              subst hreqs
              refine ⟨by simp, ?_⟩
              intro x hx
              simpa using hx
          | none =>
              subst hreqs
              by_cases ha : a = 2
              · simp only [ha, if_pos]
                refine ⟨by simp, ?_⟩
                intro x hx
                simpa using hx
              · simp only [if_neg ha]
                refine ⟨?_, ?_⟩
                · have := ih.1
                  simp
                  omega
                · intro x hx
                  rcases List.mem_append.mp hx with hx1 | hx2
                  · simpa using hx1
                  · exact ih.2 x hx2

/-- C5 (amended): the probe issues the profile's configured method
(default HEAD) first; when that method is HEAD, the first response has a
blocked status (403, 405, 429, 500, 502, 503) and the follow-up GET
returns a response, exactly one follow-up GET is issued and the follow-up
response — not the first — is classified; a first response with status
200 never triggers a follow-up, whatever the configured method; and a
probe whose configured method is not HEAD never issues a follow-up: every
attempt issues exactly one request, all requests carry the configured
method, and at most three are issued. -/
theorem C5_method_fallback (site_name : String) (site : SiteData) (username : String)
    (net : Nat → String → ReqResult) (r r2 : Response) :
    ((check_username site_name site username net).requests.head?
        = some (py_upper (site.method.getD "HEAD")))
    ∧ (py_upper (site.method.getD "HEAD") = "HEAD" →
        net 0 "HEAD" = ReqResult.ok r →
        head_blocked_statuses.contains r.status = true →
        net 0 "GET" = ReqResult.ok r2 →
        (check_username site_name site username net).requests = ["HEAD", "GET"]
        ∧ (check_username site_name site username net).result
            = interpret_response site_name site (format_url site.url username) r2)
    ∧ (net 0 (py_upper (site.method.getD "HEAD")) = ReqResult.ok r → r.status = 200 →
        (check_username site_name site username net).requests
            = [py_upper (site.method.getD "HEAD")]
        ∧ (check_username site_name site username net).result
            = interpret_response site_name site (format_url site.url username) r)
    ∧ (py_upper (site.method.getD "HEAD") ≠ "HEAD" →
        (∀ a, (run_attempt site_name site (format_url site.url username)
            (py_upper (site.method.getD "HEAD")) net a).2
          = [py_upper (site.method.getD "HEAD")])
        ∧ (check_username site_name site username net).requests.length ≤ 3
        ∧ ∀ x ∈ (check_username site_name site username net).requests,
            x = py_upper (site.method.getD "HEAD")) := by
  refine ⟨?_, ?_, ?_, ?_⟩
  · unfold check_username check_loop
    cases hra : run_attempt site_name site
        (format_url site.url username) (py_upper (site.method.getD "HEAD")) net 0 with
    | mk o reqs =>
        have hh : reqs.head? = some (py_upper (site.method.getD "HEAD")) := by
          have := run_attempt_head site_name site
            (format_url site.url username) (py_upper (site.method.getD "HEAD")) net 0
          rw [hra] at this
          exact this
        cases o with
        | some res => simp [hra]; exact hh
        | none =>
            simp [hra]
            exact Or.inl hh
  · intro hm hr hs hr2
    have hs' : r.status ∈ head_blocked_statuses := by simpa using hs
    rw [check_username, hm]
    simp [check_loop, run_attempt, hr, hs', hr2]
  · intro hr h200
    have hnb : (200 : Nat) ∉ head_blocked_statuses := by decide
    rw [check_username]
    simp [check_loop, run_attempt, hr, h200, hnb]
  · intro hm
    have hatt := run_attempt_non_head site_name site (format_url site.url username)
      (py_upper (site.method.getD "HEAD")) net hm
    have hcl := check_loop_requests site_name site (format_url site.url username)
      (py_upper (site.method.getD "HEAD")) net hatt [0, 1, 2]
    exact ⟨hatt, hcl.1, hcl.2⟩

/-- Witness for the amended C5 at a concrete input: HEAD gets 429, one GET
follow-up is issued and its 200 response is the one classified; and a
GET-method probe issues only GET requests, at most three. -/
theorem C5_method_fallback_witness :
    (check_username "ex" c5w_site "alice" c5w_net).requests = ["HEAD", "GET"]
    ∧ (check_username "ex" c5w_site "alice" c5w_net).result
        = ("ex", none, "https://ex.invalid/alice")
    ∧ (check_username "ex" c5_site "alice" c5_net).requests.length ≤ 3
    ∧ ∀ x ∈ (check_username "ex" c5_site "alice" c5_net).requests, x = "GET" := by
  have h := (C5_method_fallback "ex" c5w_site "alice" c5w_net
      { status := 429 } { status := 200 }).2.1 rfl rfl rfl rfl
  have h2 := (C5_method_fallback "ex" c5_site "alice" c5_net
      { status := 403 } { status := 403 }).2.2.2 (by decide)
  refine ⟨h.1, by rw [h.2]; rfl, h2.2.1, ?_⟩
  intro x hx
  have := h2.2.2 x hx
  rw [this]
  decide

/-- Length of a left fold of string appends. -/
theorem length_foldl_append (l : List String) (s : String) :
    (l.foldl (fun r c => r ++ c) s).length = s.length + (l.map String.length).sum := by
  induction l generalizing s with
  | nil => simp
  | cons c rest ih =>
      simp only [List.foldl_cons, List.map_cons, List.sum_cons, ih, String.length_append]
      ring

/-- Length of a joined list of strings is the sum of the lengths. -/
theorem length_join_strings (l : List String) :
    (String.join l).length = (l.map String.length).sum := by
  show (l.foldl (fun r c => r ++ c) "").length = _
  rw [length_foldl_append]
  simp

/-- The limited read keeps at most `limit - 1` characters before the chunk
that crosses the limit, plus that one chunk of at most `k` characters. -/
theorem read_limited_go_length_le (k : Nat) (chunks : List String) :
    ∀ read limit : Nat, (∀ c ∈ chunks, c.length ≤ k) → read < limit →
      read + ((read_limited_go chunks read limit).map String.length).sum ≤ limit - 1 + k := by
  induction chunks with
  | nil =>
      intro read limit _ hlt
      simp [read_limited_go]
      omega
  | cons c rest ih =>
      intro read limit hk hlt
      have hck : c.length ≤ k := hk c (List.mem_cons_self c rest)
      rw [read_limited_go]
      by_cases hge : read + c.length ≥ limit
      · simp only [hge, if_pos]
        simp
        omega
      · simp only [hge, if_neg, not_false_iff]
        simp only [List.map_cons, List.sum_cons]
        have hrest := ih (read + c.length) limit
          (fun x hx => hk x (List.mem_cons_of_mem c hx)) (by omega)
        omega

/-- The limited read returns an initial segment of the chunk list. -/
theorem read_limited_go_take (chunks : List String) :
    ∀ read limit : Nat, ∃ n, read_limited_go chunks read limit = chunks.take n := by
  induction chunks with
  | nil => intro read limit; exact ⟨0, rfl⟩
  | cons c rest ih =>
      intro read limit
      rw [read_limited_go]
      by_cases hge : read + c.length ≥ limit
      · exact ⟨1, by simp [hge]⟩
      · obtain ⟨n, hn⟩ := ih (read + c.length) limit
        exact ⟨n + 1, by simp [hge, hn]⟩

/-- C7 (amended): the text fetched by the classifier is the concatenation
of an initial segment of the body's chunks, cut at the first chunk whose
inclusion reaches 120,000 characters; with chunks of at most 8,192
characters (the `iter_chunked(8192)` bound) its length is at most
128,191 characters — it can exceed 120,000, because the source appends a
chunk before testing the limit. -/
theorem C7_read_cap (chunks : List String)
    (hchunk : ∀ c ∈ chunks, c.length ≤ 8192) :
    (read_limited_text chunks 120000).length ≤ 128191
    ∧ ∃ n, read_limited_go chunks 0 120000 = chunks.take n := by
  constructor
  · rw [read_limited_text, length_join_strings]
    have h := read_limited_go_length_le 8192 chunks 0 120000 hchunk (by norm_num)
    omega
  · exact read_limited_go_take chunks 0 120000

/-- Witness for the amended C7 at a concrete input. -/
theorem C7_read_cap_witness :
    (∀ c ∈ ["ab"], String.length c ≤ 8192)
    ∧ ((read_limited_text ["ab"] 120000).length ≤ 128191
      ∧ ∃ n, read_limited_go ["ab"] 0 120000 = (["ab"] : List String).take n) :=
  ⟨by decide, C7_read_cap ["ab"] (by decide)⟩

/-- C7 counterexample: for a 122,880-character body delivered in fifteen
8,192-character chunks, the fetched text has length 122,880 — more than
120,000 characters — because the fourteenth chunk ends at 114,688 < 120,000
and the fifteenth is appended before the limit test stops the loop. -/
theorem C7_counterexample :
    (∀ c ∈ c7_chunks, String.length c ≤ 8192)
    ∧ (read_limited_text c7_chunks 120000).length = 122880
    ∧ 120000 < (read_limited_text c7_chunks 120000).length := by
  have hc : c7_chunk.length = 8192 := by
    show (List.replicate 8192 'a').length = 8192
    rw [List.length_replicate]
  have hgo : read_limited_go c7_chunks 0 120000 = c7_chunks := by
    norm_num [c7_chunks, read_limited_go, hc]
  have hlen : (read_limited_text c7_chunks 120000).length = 122880 := by
    rw [read_limited_text, hgo, length_join_strings]
    norm_num [c7_chunks, hc]
  refine ⟨?_, hlen, by rw [hlen]; norm_num⟩
  intro c hcmem
  have : c = c7_chunk := by
    simp only [c7_chunks, List.mem_cons, List.not_mem_nil, or_false] at hcmem
    rcases hcmem with h | h | h | h | h | h | h | h | h | h | h | h | h | h | h <;> exact h
  rw [this, hc]

/-- The tag-tail scanner strictly shortens the list on success. -/
theorem drop_tag_go_length : ∀ l l', drop_tag_go l = some l' → l'.length < l.length := by
  intro l
  induction l with
  | nil => intro l' h; simp [drop_tag_go] at h
  | cons c cs ih =>
      intro l' h
      rw [drop_tag_go] at h
      by_cases hc : c = '>'
      · simp [hc] at h
        subst h
        simp
      · simp [hc] at h
        have := ih l' h
        simp
        omega

/-- A matched tag consumes at least one character. -/
theorem drop_tag_length : ∀ l l', drop_tag l = some l' → l'.length < l.length := by
  intro l
  cases l with
  | nil => intro l' h; simp [drop_tag] at h
  | cons c cs =>
      intro l' h
      rw [drop_tag] at h
      by_cases hc : c = '>'
      · simp [hc] at h
      · simp [hc] at h
        have := drop_tag_go_length cs l' h
        simp
        omega

/-- Characters after a tag tail come from the scanned list. -/
theorem drop_tag_go_mem : ∀ l l', drop_tag_go l = some l' → ∀ x ∈ l', x ∈ l := by
  intro l
  induction l with
  | nil => intro l' h; simp [drop_tag_go] at h
  | cons c cs ih =>
      intro l' h x hx
      rw [drop_tag_go] at h
      by_cases hc : c = '>'
      · simp [hc] at h
        subst h
        exact List.mem_cons_of_mem c hx
      · simp [hc] at h
        exact List.mem_cons_of_mem c (ih l' h x hx)

/-- Characters after a matched tag come from the scanned list. -/
theorem drop_tag_mem : ∀ l l', drop_tag l = some l' → ∀ x ∈ l', x ∈ l := by
  intro l
  cases l with
  | nil => intro l' h; simp [drop_tag] at h
  | cons c cs =>
      intro l' h x hx
      rw [drop_tag] at h
      by_cases hc : c = '>'
      · simp [hc] at h
      · simp [hc] at h
        exact List.mem_cons_of_mem c (drop_tag_go_mem cs l' h x hx)

/-- Without any `>` the tag-tail scanner fails. -/
theorem drop_tag_go_none (l : List Char) (h : '>' ∉ l) : drop_tag_go l = none := by
  induction l with
  | nil => rfl
  | cons c cs ih =>
      rw [drop_tag_go]
      have hc : ¬ c = '>' := fun he => h (he ▸ List.mem_cons_self c cs)
      simp [hc]
      exact ih (fun hm => h (List.mem_cons_of_mem c hm))

/-- Without any `>` no tag matches. -/
theorem drop_tag_none (l : List Char) (h : '>' ∉ l) : drop_tag l = none := by
  cases l with
  | nil => rfl
  | cons c cs =>
      rw [drop_tag]
      have hc : ¬ c = '>' := fun he => h (he ▸ List.mem_cons_self c cs)
      simp [hc]
      exact drop_tag_go_none cs (fun hm => h (List.mem_cons_of_mem c hm))

/-- Stripping only keeps characters of the input. -/
theorem strip_tags_fuel_mem : ∀ fuel (l : List Char) x, x ∈ strip_tags_fuel fuel l → x ∈ l := by
  intro fuel
  induction fuel with
  | zero =>
      intro l x h
      cases l with
      | nil => simp [strip_tags_fuel] at h
      | cons c rest => exact h
  | succ f ih =>
      intro l x h
      cases l with
      | nil => simp [strip_tags_fuel] at h
      | cons c rest =>
          rw [strip_tags_fuel] at h
          by_cases hc : c = '<'
          · simp only [hc, if_pos] at h
            cases hd : drop_tag rest with
            | some rest2 =>
                rw [hd] at h
                exact List.mem_cons_of_mem c (drop_tag_mem rest rest2 hd x (ih rest2 x h))
            | none =>
                rw [hd] at h
                rcases List.mem_cons.mp h with he | hm
                · exact List.mem_cons.mpr (Or.inl (by simp [he, hc]))
                · exact List.mem_cons_of_mem c (ih rest x hm)
          · simp only [hc, if_neg, not_false_iff] at h
            rcases List.mem_cons.mp h with he | hm
            · exact List.mem_cons.mpr (Or.inl (by simp [he]))
            · exact List.mem_cons_of_mem c (ih rest x hm)

/-- With no match after a `<`, the remainder after the first character
holds no `>` at all. -/
theorem gt_not_mem_of_drop_tag_go_none : ∀ l : List Char, drop_tag_go l = none → '>' ∉ l := by
  intro l
  induction l with
  | nil => intro _ hm; simp at hm
  | cons a as ih =>
      intro hgo hm
      rw [drop_tag_go] at hgo
      by_cases ha : a = '>'
      · simp [ha] at hgo
      · simp [ha] at hgo
        rcases List.mem_cons.mp hm with he | hm2
        · exact ha he.symm
        · exact ih hgo hm2

/-- After stripping, no `<[^>]+>` tag remains anywhere in the output. -/
theorem strip_tags_fuel_no_tag :
    ∀ fuel (l : List Char), l.length ≤ fuel → has_tag_go (strip_tags_fuel fuel l) = false := by
  intro fuel
  induction fuel with
  | zero =>
      intro l hl
      have : l = [] := List.eq_nil_of_length_eq_zero (Nat.le_zero.mp hl)
      subst this
      rfl
  | succ f ih =>
      intro l hl
      cases l with
      | nil => rfl
      | cons c rest =>
          have hrest : rest.length ≤ f := by
            simp at hl
            omega
          rw [strip_tags_fuel]
          by_cases hc : c = '<'
          · simp only [hc, if_pos]
            cases hd : drop_tag rest with
            | some rest2 =>
                have hlen := drop_tag_length rest rest2 hd
                exact ih rest2 (by omega)
            | none =>
                rw [has_tag_go]
                have htail := ih rest hrest
                have hnotag : drop_tag (strip_tags_fuel f rest) = none := by
                  cases rest with
                  | nil =>
                      cases f <;> rfl
                  | cons r rs =>
                      by_cases hr : r = '>'
                      · have hunfold : strip_tags_fuel f (r :: rs)
                            = r :: strip_tags_fuel (f - 1) rs := by
                          cases f with
                          | zero => simp at hrest
                          | succ f2 =>
                              rw [strip_tags_fuel]
                              have : ¬ r = '<' := by rw [hr]; decide
                              simp [this]
                        rw [hunfold, drop_tag, hr]
                        simp
                      · rw [drop_tag] at hd
                        simp [hr] at hd
                        have hno : '>' ∉ (r :: rs) := by
                          intro hm
                          rcases List.mem_cons.mp hm with he | hm2
                          · exact hr he.symm
                          · exact gt_not_mem_of_drop_tag_go_none rs hd hm2
                        have : '>' ∉ strip_tags_fuel f (r :: rs) := by
                          intro hm
                          exact hno (strip_tags_fuel_mem f (r :: rs) '>' hm)
                        exact drop_tag_none _ this
                rw [hnotag]
                simp [htail]
          · simp only [if_neg hc]
            rw [has_tag_go]
            have hcc : (c == '<') = false := by simp [hc]
            rw [hcc]
            simp [ih rest hrest]

/-- Inside a whitespace run, the next emitted character is not whitespace. -/
theorem collapse_go_true_head :
    ∀ (l : List Char) b bs, collapse_go true l = b :: bs → b.isWhitespace = false := by
  intro l
  induction l with
  | nil => intro b bs h; simp [collapse_go] at h
  | cons c rest ih =>
      intro b bs h
      rw [collapse_go] at h
      by_cases hw : c.isWhitespace
      · simp [hw] at h
        exact ih b bs h
      · simp [hw] at h
        rw [← h.1]
        simpa using hw

/-- Collapsing leaves no two adjacent whitespace characters. -/
theorem collapse_go_no_double :
    ∀ (l : List Char) prev, no_double_ws (collapse_go prev l) = true := by
  intro l
  induction l with
  | nil => intro prev; rfl
  | cons c rest ih =>
      intro prev
      rw [collapse_go]
      by_cases hw : c.isWhitespace
      · simp only [hw, if_pos]
        cases prev with
        | true => simpa using ih true
        | false =>
            simp only [Bool.false_eq_true, if_neg]
            cases hout : collapse_go true rest with
            | nil => rfl
            | cons b bs =>
                have hb := collapse_go_true_head rest b bs hout
                show ((!(Char.isWhitespace ' ' && b.isWhitespace)) && no_double_ws (b :: bs)) = true
                have := ih true
                rw [hout] at this
                simp [hb, this]
      · simp only [hw, if_neg, Bool.false_eq_true, not_false_iff]
        cases hout : collapse_go false rest with
        | nil => rfl
        | cons b bs =>
            show ((!(c.isWhitespace && b.isWhitespace)) && no_double_ws (b :: bs)) = true
            have := ih false
            rw [hout] at this
            simp [hw, this]

/-- Every whitespace character surviving the collapse is a single space. -/
theorem collapse_go_ws_space :
    ∀ (l : List Char) prev x, x ∈ collapse_go prev l → x.isWhitespace = true → x = ' ' := by
  intro l
  induction l with
  | nil => intro prev x h; simp [collapse_go] at h
  | cons c rest ih =>
      intro prev x h hx
      rw [collapse_go] at h
      by_cases hw : c.isWhitespace
      · simp only [hw, if_pos] at h
        cases prev with
        | true => exact ih true x h hx
        | false =>
            simp only [Bool.false_eq_true, if_neg] at h
            rcases List.mem_cons.mp h with he | hm
            · exact he
            · exact ih true x hm hx
      · simp only [hw, if_neg, Bool.false_eq_true, not_false_iff] at h
        rcases List.mem_cons.mp h with he | hm
        · rw [he] at hx
          rw [hx] at hw
          exact absurd rfl hw
        · exact ih false x hm hx

/-- Length of a string built from a character list. -/
theorem length_mk (l : List Char) : (String.mk l).length = l.length := rfl

/-- Length of a character-level prefix within bounds. -/
theorem py_take_length (s : String) (n : Nat) (h : n ≤ s.length) :
    (py_take s n).length = n := by
  rw [py_take, length_mk, List.length_take]
  exact Nat.min_eq_left h

/-- C9: for every biography text extracted by the enrichment step, markup
is stripped (no `<[^>]+>` tag survives), runs of whitespace are collapsed
(no two adjacent whitespace characters remain, and every remaining
whitespace character is a single space), and the returned bio is the
cleaned text truncated to its first 80 characters plus an ellipsis marker
when the cleaned text exceeds 80 characters — giving 83 characters total —
and the cleaned text unchanged otherwise; both extraction branches behave
this way, and a successful description match yields exactly the processed
bio. -/
theorem C9_bio_clean_truncate (g : String) :
    has_tag (strip_tags g) = false
    ∧ no_double_ws (collapse_ws (py_strip (strip_tags g))).data = true
    ∧ (∀ x ∈ (collapse_ws (py_strip (strip_tags g))).data, x.isWhitespace = true → x = ' ')
    ∧ ((collapse_ws (py_strip (strip_tags g))).length > 80 →
        process_desc_bio g = py_take (collapse_ws (py_strip (strip_tags g))) 80 ++ "..."
        ∧ (process_desc_bio g).length = 83)
    ∧ ((collapse_ws (py_strip (strip_tags g))).length ≤ 80 →
        process_desc_bio g = collapse_ws (py_strip (strip_tags g)))
    ∧ ((collapse_ws (py_strip g)).length > 80 →
        process_meta_bio g = py_take (collapse_ws (py_strip g)) 80 ++ "..."
        ∧ (process_meta_bio g).length = 83)
    ∧ ((collapse_ws (py_strip g)).length ≤ 80 →
        process_meta_bio g = collapse_ws (py_strip g))
    ∧ fetch_x_bio false 200 (some g) none = some (process_desc_bio g) := by
  refine ⟨?_, ?_, ?_, ?_, ?_, ?_, ?_, rfl⟩
  · exact strip_tags_fuel_no_tag g.data.length g.data (Nat.le_refl _)
  · exact collapse_go_no_double (py_strip (strip_tags g)).data false
  · exact fun x hx => collapse_go_ws_space (py_strip (strip_tags g)).data false x hx
  · intro h
    constructor
    · rw [process_desc_bio, truncate_bio, if_pos h]
    · rw [process_desc_bio, truncate_bio, if_pos h, String.length_append,
        py_take_length _ _ (Nat.le_of_lt h)]
      rfl
  · intro h
    rw [process_desc_bio, truncate_bio, if_neg (by omega)]
  · intro h
    constructor
    · rw [process_meta_bio, truncate_bio, if_pos h]
    · rw [process_meta_bio, truncate_bio, if_pos h, String.length_append,
        py_take_length _ _ (Nat.le_of_lt h)]
      rfl
  · intro h
    rw [process_meta_bio, truncate_bio, if_neg (by omega)]

/-- Witness for C9 at a concrete input: markup removed, double space
collapsed, short bio returned unchanged. -/
theorem C9_bio_clean_truncate_witness :
    process_desc_bio "<b>hi  there</b> " = "hi there" := by
  have h := (C9_bio_clean_truncate "<b>hi  there</b> ").2.2.2.2.1 (by decide)
  rw [h]
  decide

/-- The classifier always returns the site name and probed URL it was given. -/
theorem interpret_response_proj (site_name : String) (site : SiteData) (url : String)
    (resp : Response) :
    (interpret_response site_name site url resp).1 = site_name
    ∧ (interpret_response site_name site url resp).2.2 = url := by
  unfold interpret_response
  constructor <;> (repeat' split) <;> rfl

/-- A produced attempt result carries the given site name and URL. -/
theorem run_attempt_result (site_name : String) (site : SiteData) (url m : String)
    (net : Nat → String → ReqResult) (a : Nat) :
    ∀ res reqs, run_attempt site_name site url m net a = (some res, reqs) →
      res.1 = site_name ∧ res.2.2 = url := by
  intro res reqs h
  unfold run_attempt at h
  cases hn : net a m with
  | exn => rw [hn] at h; simp at h
  | ok resp =>
      rw [hn] at h
      dsimp only at h
      by_cases hb : (m = "HEAD" && head_blocked_statuses.contains resp.status) = true
      · rw [if_pos hb] at h
        cases hg : net a "GET" with
        | exn => rw [hg] at h; simp at h
        | ok resp2 =>
            rw [hg] at h
            simp at h
            rw [← h.1]
            exact interpret_response_proj site_name site url resp2
      · rw [if_neg hb] at h
        simp at h
        rw [← h.1]
        exact interpret_response_proj site_name site url resp

/-- The attempt loop always returns the given site name and URL. -/
theorem check_loop_proj (site_name : String) (site : SiteData) (url m : String)
    (net : Nat → String → ReqResult) :
    ∀ attempts, (check_loop site_name site url m net attempts).result.1 = site_name
      ∧ (check_loop site_name site url m net attempts).result.2.2 = url := by
  intro attempts
  induction attempts with
  | nil => exact ⟨rfl, rfl⟩
  | cons a rest ih =>
      rw [check_loop]
      cases hra : run_attempt site_name site url m net a with
      | mk o reqs =>
          cases o with
          | some res =>
              simp only []
              exact run_attempt_result site_name site url m net a res reqs hra
          | none =>
              simp only []
              by_cases ha : a = 2
              · simp [ha]
              · simp [ha]
                exact ih

/-- `check_username` returns the given site name and the constructed URL. -/
theorem check_username_proj (site_name : String) (site : SiteData) (username : String)
    (net : Nat → String → ReqResult) :
    (check_username site_name site username net).result.1 = site_name
    ∧ (check_username site_name site username net).result.2.2
        = format_url site.url username :=
  check_loop_proj site_name site (format_url site.url username)
    (py_upper (site.method.getD "HEAD")) net [0, 1, 2]

/-- Characterization of the collection fold: results are appended in
order, a probe event is recorded per result, and the `x_exists` flag is
the disjunction of the per-result tests. -/
theorem collect_step_foldl (sites : List (String × SiteData)) :
    ∀ (rs : List (String × Option Bool × String))
      (acc : List (String × Option Bool × String) × Bool × List ScanEvent),
      (rs.foldl (collect_step sites) acc).1 = acc.1 ++ rs
      ∧ (rs.foldl (collect_step sites) acc).2.2
          = acc.2.2 ++ rs.map (fun r => ScanEvent.probe r.1)
      ∧ (rs.foldl (collect_step sites) acc).2.1
          = (acc.2.1 || rs.any (fun r =>
              (r.2.1 == some true)
                && is_x_site r.1 ((List.lookup r.1 sites).getD default_site))) := by
  intro rs
  induction rs with
  | nil => intro acc; simp
  | cons r rest ih =>
      intro acc
      rw [List.foldl_cons]
      refine ⟨?_, ?_, ?_⟩
      · rw [(ih (collect_step sites acc r)).1]
        simp [collect_step]
      · rw [(ih (collect_step sites acc r)).2.1]
        simp [collect_step]
      · rw [(ih (collect_step sites acc r)).2.2]
        simp [collect_step, Bool.or_assoc]

/-- The collected results of a sweep are exactly the completions of the
per-site probes, in arrival order. -/
theorem scan_handle_results (sites : List (String × SiteData)) (uname : String)
    (net : String → Nat → String → ReqResult) (bioFetch : String → Option String)
    (ord : List CheckTrace → List CheckTrace) :
    (scan_handle sites uname net bioFetch ord).results
      = (ord (sites.map (fun p => check_username p.1 p.2 uname (net p.1)))).map
          (fun t => t.result) := by
  obtain ⟨h1, h2, h3⟩ := collect_step_foldl sites
    ((ord (sites.map (fun p => check_username p.1 p.2 uname (net p.1)))).map
      (fun t => t.result))
    ([], false, [])
  simp only [scan_handle]
  split
  · split <;> simp [h1]
  · simp [h1]

/-- The event trace of a sweep is all probe completions followed by the
single enrichment event exactly when some completed result is an Exists on
an X/Twitter profile. -/
theorem scan_handle_events (sites : List (String × SiteData)) (uname : String)
    (net : String → Nat → String → ReqResult) (bioFetch : String → Option String)
    (ord : List CheckTrace → List CheckTrace) :
    (scan_handle sites uname net bioFetch ord).events
      = ((ord (sites.map (fun p => check_username p.1 p.2 uname (net p.1)))).map
          (fun t => t.result)).map (fun r => ScanEvent.probe r.1)
        ++ (if ((ord (sites.map (fun p => check_username p.1 p.2 uname (net p.1)))).map
              (fun t => t.result)).any (fun r =>
                (r.2.1 == some true)
                  && is_x_site r.1 ((List.lookup r.1 sites).getD default_site))
            then [ScanEvent.enrich] else []) := by
  obtain ⟨h1, h2, h3⟩ := collect_step_foldl sites
    ((ord (sites.map (fun p => check_username p.1 p.2 uname (net p.1)))).map
      (fun t => t.result))
    ([], false, [])
  simp only [scan_handle]
  rw [List.nil_append] at h2
  rw [Bool.false_or] at h3
  split
  · rename_i hcond
    rw [h3] at hcond
    rw [hcond]
    split <;> simp [h2]
  · rename_i hcond
    rw [h3] at hcond
    simp only [Bool.not_eq_true] at hcond
    rw [hcond]
    simp [h2]

/-- The cached bio of a sweep: absent unless the enrichment condition held
and the fetch returned a non-empty string. -/
theorem scan_handle_bio (sites : List (String × SiteData)) (uname : String)
    (net : String → Nat → String → ReqResult) (bioFetch : String → Option String)
    (ord : List CheckTrace → List CheckTrace) :
    (scan_handle sites uname net bioFetch ord).bio
      = (if ((ord (sites.map (fun p => check_username p.1 p.2 uname (net p.1)))).map
              (fun t => t.result)).any (fun r =>
                (r.2.1 == some true)
                  && is_x_site r.1 ((List.lookup r.1 sites).getD default_site))
          then (match bioFetch uname with
                | some b => if b = "" then none else some b
                | none => none)
          else none) := by
  obtain ⟨h1, h2, h3⟩ := collect_step_foldl sites
    ((ord (sites.map (fun p => check_username p.1 p.2 uname (net p.1)))).map
      (fun t => t.result))
    ([], false, [])
  simp only [scan_handle]
  rw [Bool.false_or] at h3
  split
  · rename_i hcond
    rw [h3] at hcond
    rw [hcond]
    split <;> simp
  · rename_i hcond
    rw [h3] at hcond
    simp only [Bool.not_eq_true] at hcond
    rw [hcond]
    simp

/-- C6: a profile is included exactly when it is not marked skip or the
include-skipped flag is set; a scan whose normalized handle is empty
aborts with the configuration error before any probe; otherwise the scan
completes with exactly one handle entry per scanned handle, and each
handle's results carry exactly one entry per included profile — a
permutation of the included site names, without duplicates when the
catalog names are distinct. -/
theorem C6_full_result_set (sites_all : List (String × SiteData)) (include_skipped : Bool)
    (username : String) (use_variants : Bool) (max_variants rnd : Nat)
    (shuf : List String → List String)
    (net : String → String → Nat → String → ReqResult)
    (bioFetch : String → Option String)
    (ord : String → List CheckTrace → List CheckTrace)
    (hperm : ∀ u l, (ord u l).Perm l) :
    (∀ p, p ∈ included_sites sites_all include_skipped
        ↔ p ∈ sites_all ∧ (p.2.skip = false ∨ include_skipped = true))
    ∧ (normalize_handle username = "" →
        run_scan sites_all include_skipped username use_variants max_variants rnd shuf net
          bioFetch ord = Except.error "Empty username")
    ∧ (normalize_handle username ≠ "" →
        ∃ out, run_scan sites_all include_skipped username use_variants max_variants rnd shuf
            net bioFetch ord = Except.ok out
          ∧ out.handles.map Prod.fst
              = (if use_variants then
                  generate_username_variations rnd shuf (normalize_handle username) max_variants
                 else [normalize_handle username])
          ∧ ∀ e ∈ out.handles,
              (e.2.results.map (fun r => r.1)).Perm
                ((included_sites sites_all include_skipped).map Prod.fst)
              ∧ ((sites_all.map Prod.fst).Nodup → (e.2.results.map (fun r => r.1)).Nodup)) := by
  refine ⟨?_, ?_, ?_⟩
  · intro p
    rw [included_sites, List.mem_filter]
    have hb : ∀ a b : Bool, ((!(a && !b)) = true) ↔ (a = false ∨ b = true) := by decide
    rw [hb]
  · intro h
    simp [run_scan, h]
  · intro h
    refine ⟨{ handles := (if use_variants then
                generate_username_variations rnd shuf (normalize_handle username) max_variants
              else [normalize_handle username]).map
                (fun u => (u, scan_handle (included_sites sites_all include_skipped) u
                  (net u) bioFetch (ord u))) }, ?_, ?_, ?_⟩
    · simp [run_scan, h]
    · rw [List.map_map]
      exact List.map_id _
    · intro e he
      rw [List.mem_map] at he
      obtain ⟨u, _, he⟩ := he
      rw [← he]
      have hres := scan_handle_results (included_sites sites_all include_skipped) u
        (net u) bioFetch (ord u)
      have hmapeq : ((included_sites sites_all include_skipped).map
            (fun p => check_username p.1 p.2 u (net u p.1))).map (fun t => t.result.1)
          = (included_sites sites_all include_skipped).map Prod.fst := by
        rw [List.map_map]
        apply List.map_congr_left
        intro p _
        exact (check_username_proj p.1 p.2 u (net u p.1)).1
      have hpermres : ((scan_handle (included_sites sites_all include_skipped) u
            (net u) bioFetch (ord u)).results.map (fun r => r.1)).Perm
          ((included_sites sites_all include_skipped).map Prod.fst) := by
        rw [hres, List.map_map]
        have hp := (hperm u ((included_sites sites_all include_skipped).map
          (fun p => check_username p.1 p.2 u (net u p.1)))).map (fun t => t.result.1)
        rw [hmapeq] at hp
        exact hp
      refine ⟨hpermres, ?_⟩
      intro hnd
      have hsub : ((included_sites sites_all include_skipped).map Prod.fst).Sublist
          (sites_all.map Prod.fst) := by
        exact List.Sublist.map Prod.fst (List.filter_sublist sites_all)
      exact hpermres.nodup_iff.mpr (hnd.sublist hsub)

/-- Witness for C6 at a concrete input. -/
theorem C6_full_result_set_witness :
    ∃ out, run_scan [("ex", c1_site)] false "Alice " false 12 0 id no_net no_bio triv_ord
        = Except.ok out
      ∧ out.handles.map Prod.fst = [normalize_handle "Alice "]
      ∧ ∀ e ∈ out.handles,
          (e.2.results.map (fun r => r.1)).Perm
            ((included_sites [("ex", c1_site)] false).map Prod.fst)
          ∧ ((([("ex", c1_site)] : List (String × SiteData)).map Prod.fst).Nodup →
              (e.2.results.map (fun r => r.1)).Nodup) := by
  have h := (C6_full_result_set [("ex", c1_site)] false "Alice " false 12 0 id no_net no_bio
      triv_ord (fun u l => List.Perm.refl l)).2.2 (by decide)
  simpa using h

/-- C8: in one handle's sweep, the event trace is all probe completions
followed by at most one enrichment event; the enrichment happens exactly
when some completed result is an Exists verdict on an X/Twitter profile;
when the enrichment fetch fails (`None`) no bio is cached; and the
collected probe results (and the event trace) do not depend on the
enrichment oracle at all, so an enrichment failure leaves every verdict
unchanged. -/
theorem C8_enrichment (sites : List (String × SiteData)) (uname : String)
    (net : String → Nat → String → ReqResult) (bioFetch bioFetch2 : String → Option String)
    (ord : List CheckTrace → List CheckTrace) :
    (scan_handle sites uname net bioFetch ord).events
      = (scan_handle sites uname net bioFetch ord).results.map (fun r => ScanEvent.probe r.1)
        ++ (if (scan_handle sites uname net bioFetch ord).results.any (fun r =>
              (r.2.1 == some true)
                && is_x_site r.1 ((List.lookup r.1 sites).getD default_site))
            then [ScanEvent.enrich] else [])
    ∧ (scan_handle sites uname net bioFetch ord).events.countP is_enrich
        = (if (scan_handle sites uname net bioFetch ord).results.any (fun r =>
              (r.2.1 == some true)
                && is_x_site r.1 ((List.lookup r.1 sites).getD default_site))
           then 1 else 0)
    ∧ ((scan_handle sites uname net bioFetch ord).results.any (fun r =>
          (r.2.1 == some true)
            && is_x_site r.1 ((List.lookup r.1 sites).getD default_site)) = true
        ↔ ∃ r ∈ (scan_handle sites uname net bioFetch ord).results,
            r.2.1 = some true
            ∧ is_x_site r.1 ((List.lookup r.1 sites).getD default_site) = true)
    ∧ (bioFetch uname = none → (scan_handle sites uname net bioFetch ord).bio = none)
    ∧ (scan_handle sites uname net bioFetch2 ord).results
        = (scan_handle sites uname net bioFetch ord).results
    ∧ (scan_handle sites uname net bioFetch2 ord).events
        = (scan_handle sites uname net bioFetch ord).events := by
  have hev := scan_handle_events sites uname net bioFetch ord
  have hev2 := scan_handle_events sites uname net bioFetch2 ord
  have hres := scan_handle_results sites uname net bioFetch ord
  have hres2 := scan_handle_results sites uname net bioFetch2 ord
  have hbio := scan_handle_bio sites uname net bioFetch ord
  refine ⟨?_, ?_, ?_, ?_, ?_, ?_⟩
  · rw [hev, hres]
  · rw [hev, hres]
    rw [List.countP_append, List.countP_map]
    have hzero : List.countP (is_enrich ∘ fun r => ScanEvent.probe r.1)
        ((ord (sites.map (fun p => check_username p.1 p.2 uname (net p.1)))).map
          (fun t => t.result)) = 0 := by
      apply List.countP_eq_zero.mpr
      intro r _
      simp [is_enrich, Function.comp]
    rw [hzero]
    split <;> rfl
  · rw [hres]
    rw [List.any_eq_true]
    constructor
    · rintro ⟨r, hr, hpred⟩
      rw [Bool.and_eq_true] at hpred
      exact ⟨r, hr, by simpa using hpred.1, hpred.2⟩
    · rintro ⟨r, hr, h1, h2⟩
      exact ⟨r, hr, by simp [h1, h2]⟩
  · intro h
    rw [hbio, h]
    split <;> rfl
  · rw [hres, hres2]
  · rw [hev, hev2]

/-- Witness for C8 at a concrete input: the X probe reports Exists, the
enrichment event follows the probe, and a failed fetch caches no bio. -/
theorem C8_enrichment_witness :
    (scan_handle [("x", c8_site)] "alice" c8_net no_bio (fun l => l)).bio = none
    ∧ (scan_handle [("x", c8_site)] "alice" c8_net no_bio (fun l => l)).events
        = [ScanEvent.probe "x", ScanEvent.enrich] := by
  have h := C8_enrichment [("x", c8_site)] "alice" c8_net no_bio no_bio (fun l => l)
  refine ⟨h.2.2.2.1 rfl, ?_⟩
  rw [h.1]
  rfl

/-- C10: the scan strips and lowercases the handle before probing: with
variants off, the single result-map key is the normalized handle, the
original spelling never appears as a key when it differs from the
normalized form, and every probed URL is the template of an included
profile instantiated with the normalized handle; with variants on, the
variant generator is fed exactly the normalized handle. -/
theorem C10_handle_normalization (sites_all : List (String × SiteData))
    (include_skipped : Bool) (username : String) (max_variants rnd : Nat)
    (shuf : List String → List String)
    (net : String → String → Nat → String → ReqResult)
    (bioFetch : String → Option String)
    (ord : String → List CheckTrace → List CheckTrace)
    (hperm : ∀ u l, (ord u l).Perm l)
    (hbase : normalize_handle username ≠ "") :
    (∃ out, run_scan sites_all include_skipped username false max_variants rnd shuf net
        bioFetch ord = Except.ok out
      ∧ out.handles.map Prod.fst = [normalize_handle username]
      ∧ (username ≠ normalize_handle username → username ∉ out.handles.map Prod.fst)
      ∧ ∀ e ∈ out.handles, ∀ r ∈ e.2.results,
          ∃ d, (r.1, d) ∈ included_sites sites_all include_skipped
            ∧ r.2.2 = format_url d.url (normalize_handle username))
    ∧ (∃ out, run_scan sites_all include_skipped username true max_variants rnd shuf net
        bioFetch ord = Except.ok out
      ∧ out.handles.map Prod.fst
          = generate_username_variations rnd shuf (normalize_handle username) max_variants) := by
  constructor
  · refine ⟨{ handles := [(normalize_handle username,
        scan_handle (included_sites sites_all include_skipped) (normalize_handle username)
          (net (normalize_handle username)) bioFetch (ord (normalize_handle username)))] },
      ?_, ?_, ?_, ?_⟩
    · simp [run_scan, hbase]
    · rfl
    · intro hne hmem
      simp at hmem
      exact hne hmem
    · intro e he r hr
      simp only [List.mem_singleton] at he
      rw [he] at hr
      simp only [] at hr
      rw [scan_handle_results] at hr
      rw [List.mem_map] at hr
      obtain ⟨t, ht, hteq⟩ := hr
      have ht2 : t ∈ (included_sites sites_all include_skipped).map
          (fun p => check_username p.1 p.2 (normalize_handle username)
            (net (normalize_handle username) p.1)) :=
        (hperm (normalize_handle username) _).mem_iff.mp ht
      rw [List.mem_map] at ht2
      obtain ⟨p, hp, hpt⟩ := ht2
      have hproj := check_username_proj p.1 p.2 (normalize_handle username)
        (net (normalize_handle username) p.1)
      refine ⟨p.2, ?_, ?_⟩
      · have hr1 : r.1 = p.1 := by
          rw [← hteq, ← hpt]
          exact hproj.1
        rw [hr1]
        simpa using hp
      · rw [← hteq, ← hpt]
        exact hproj.2
  · refine ⟨{ handles := (generate_username_variations rnd shuf (normalize_handle username)
        max_variants).map (fun u => (u,
          scan_handle (included_sites sites_all include_skipped) u (net u) bioFetch (ord u))) },
      ?_, ?_⟩
    · simp [run_scan, hbase]
    · rw [List.map_map]
      exact List.map_id _

/-- Witness for C10 at a concrete input: handle `"Alice "` is scanned as
`"alice"`. -/
theorem C10_handle_normalization_witness :
    normalize_handle "Alice " = "alice"
    ∧ ∃ out, run_scan [("ex", c1_site)] false "Alice " false 12 0 id no_net no_bio triv_ord
        = Except.ok out
      ∧ out.handles.map Prod.fst = [normalize_handle "Alice "]
      ∧ ("Alice " ≠ normalize_handle "Alice " → "Alice " ∉ out.handles.map Prod.fst)
      ∧ ∀ e ∈ out.handles, ∀ r ∈ e.2.results,
          ∃ d, (r.1, d) ∈ included_sites [("ex", c1_site)] false
            ∧ r.2.2 = format_url d.url (normalize_handle "Alice ") :=
  ⟨by decide,
   (C10_handle_normalization [("ex", c1_site)] false "Alice " 12 0 id no_net no_bio triv_ord
     (fun u l => List.Perm.refl l) (by decide)).1⟩
